import Mathlib

/-!
Shallow embedding of the 2048 board engine from `src/2048.py`.

The `Board` class stores a 4×4 numpy array; we model the array as a total
function `Fin 4 → Fin 4 → Nat`.  The two random draws made by
`Board._add_new_tile` (`random.choice` over the empty positions and the
`random.random() < FOUR_CHANCE` coin) are made explicit: a spawn choice is an
index into the row-major list of empty positions together with the 2-vs-4
coin.  Everything else is a direct translation of the Python methods.
-/

namespace Game2048

/-- `Config.BOARD_SIZE` in the source. -/
def boardSize : Nat := 4

abbrev Idx := Fin 4

/-- The 4×4 board contents (`Board.board` in the source). -/
abbrev Grid := Idx → Idx → Nat

/-- The reversal `i ↦ 3 - i` of row/column indices, used to express
`np.rot90`. -/
def rev4 (i : Idx) : Idx := ⟨3 - i.val, by omega⟩

/-- `np.rot90(board)`: one counter-clockwise quarter turn,
`(rot90 g) i j = g j (3 - i)`. -/
def rot90 (g : Grid) : Grid := fun i j => g j (rev4 i)

/-- The grid as a row-major list of rows, the way the numpy array prints;
used to model elementwise array comparison (`np.array_equal`). -/
def toLists (g : Grid) : List (List Nat) :=
  [[g 0 0, g 0 1, g 0 2, g 0 3],
   [g 1 0, g 1 1, g 1 2, g 1 3],
   [g 2 0, g 2 1, g 2 2, g 2 3],
   [g 3 0, g 3 1, g 3 2, g 3 3]]

/-- Build a grid from a row-major list of rows (missing entries are 0);
used only to write down concrete test boards. -/
def ofLists (l : List (List Nat)) : Grid :=
  fun i j => (l.getD i.val []).getD j.val 0

/-- `np.array_equal(old_board, new_board)`: elementwise comparison. -/
def gridBEq (g g' : Grid) : Bool := decide (toLists g = toLists g')

/-- Row `i` of the grid as the list the Python code iterates over. -/
def rowList (g : Grid) (i : Idx) : List Nat := [g i 0, g i 1, g i 2, g i 3]

/-- Read a length-4 list back as a row of the grid (`self.board[i] = new_row`). -/
def listToRow (l : List Nat) : Idx → Nat := fun j => l.getD j.val 0

/-- `Board._compress_row`: drop the zeros, keep the order, pad with zeros on
the right to `BOARD_SIZE`. -/
def compressRow (row : List Nat) : List Nat :=
  let nz := row.filter (fun v => v != 0)
  nz ++ List.replicate (4 - nz.length) 0

/-- One iteration (index `j`) of the merge loop in `Board._move_left_row`:
if `new_row[j] != 0 and new_row[j] == new_row[j+1]`, double `new_row[j]`,
add the doubled value to the score and zero out `new_row[j+1]`. -/
def mergeAt (rs : List Nat × Nat) (j : Nat) : List Nat × Nat :=
  if rs.1.getD j 0 ≠ 0 ∧ rs.1.getD j 0 = rs.1.getD (j + 1) 0 then
    (((rs.1.set j (2 * rs.1.getD j 0)).set (j + 1) 0), rs.2 + 2 * rs.1.getD j 0)
  else rs

/-- The whole merge loop `for j in range(Config.BOARD_SIZE - 1)`. -/
def mergeRow (r : List Nat) : List Nat × Nat :=
  [0, 1, 2].foldl mergeAt (r, 0)

/-- `Board._move_left_row`: compress, merge adjacent equal tiles, compress
again; returns the new row and the score gained. -/
def moveLeftRow (row : List Nat) : List Nat × Nat :=
  let m := mergeRow (compressRow row)
  (compressRow m.1, m.2)

/-- The pure slide/merge part of `Board.move_left`: every row replaced by
`_move_left_row` of itself. -/
def collapseL (g : Grid) : Grid :=
  fun i => listToRow (moveLeftRow (rowList g i)).1

/-- The `total_score` accumulated over the four rows in `Board.move_left`. -/
def scoreL (g : Grid) : Nat :=
  (moveLeftRow (rowList g 0)).2 + (moveLeftRow (rowList g 1)).2 +
    (moveLeftRow (rowList g 2)).2 + (moveLeftRow (rowList g 3)).2

/-- The row-major list of all 16 cell positions, as produced by
`np.argwhere`. -/
def allPos : List (Idx × Idx) :=
  [(0, 0), (0, 1), (0, 2), (0, 3),
   (1, 0), (1, 1), (1, 2), (1, 3),
   (2, 0), (2, 1), (2, 2), (2, 3),
   (3, 0), (3, 1), (3, 2), (3, 3)]

/-- `np.argwhere(self.board == 0)`: the empty positions in row-major order. -/
def emptyCells (g : Grid) : List (Idx × Idx) :=
  allPos.filter (fun p => g p.1 p.2 == 0)

/-- `self.board[row][col] = value`. -/
def setCell (g : Grid) (i j : Idx) (v : Nat) : Grid :=
  fun a b => if a = i ∧ b = j then v else g a b

/-- A spawn choice: the index `random.choice` takes into the list of empty
positions (reduced mod its length), and whether `random.random()` came in
under `FOUR_CHANCE`. -/
abbrev Choice := Nat × Bool

/-- The value of a freshly spawned tile: `4 if random.random() < 0.08 else 2`. -/
def spawnVal (four : Bool) : Nat := if four then 4 else 2

/-- `Board._add_new_tile`: pick an empty position (if any) and put a 2 or a 4
there; report failure on a full board. -/
def addNewTile (c : Nat) (four : Bool) (g : Grid) : Grid × Bool :=
  let es := emptyCells g
  if es.isEmpty then (g, false)
  else
    let p := es.getD (c % es.length) (0, 0)
    (setCell g p.1 p.2 (spawnVal four), true)

/-- `Board.move_left`: collapse all rows, compare with the old board to get
`moved`, spawn a new tile when `moved`, and return `(moved, total_score)`
together with the final board. -/
def moveLeft (c : Choice) (g : Grid) : Grid × Bool × Nat :=
  let g2 := collapseL g
  let moved := !(gridBEq g g2)
  if moved then ((addNewTile c.1 c.2 g2).1, true, scoreL g)
  else (g2, false, scoreL g)

/-- `Board.move_right`: rotate 180°, move left, rotate back 180°. -/
def moveRight (c : Choice) (g : Grid) : Grid × Bool × Nat :=
  let r := moveLeft c (rot90 (rot90 g))
  (rot90 (rot90 r.1), r.2)

/-- `Board.move_up`: rotate 90°, move left, rotate 270° back. -/
def moveUp (c : Choice) (g : Grid) : Grid × Bool × Nat :=
  let r := moveLeft c (rot90 g)
  (rot90 (rot90 (rot90 r.1)), r.2)

/-- `Board.move_down`: rotate 270°, move left, rotate 90° back. -/
def moveDown (c : Choice) (g : Grid) : Grid × Bool × Nat :=
  let r := moveLeft c (rot90 (rot90 (rot90 g)))
  (rot90 r.1, r.2)

/-- The four move directions dispatched in `Game.handle_input`. -/
inductive Direction where
  | up
  | down
  | left
  | right
deriving DecidableEq

/-- The move method `Game.handle_input` calls for each direction. -/
def applyMove : Direction → Choice → Grid → Grid × Bool × Nat
  | Direction.up, c, g => moveUp c g
  | Direction.down, c, g => moveDown c g
  | Direction.left, c, g => moveLeft c g
  | Direction.right, c, g => moveRight c g

/-- The rotation each directional move applies before calling `move_left`. -/
def rotFor : Direction → Grid → Grid
  | Direction.up, g => rot90 g
  | Direction.down, g => rot90 (rot90 (rot90 g))
  | Direction.left, g => g
  | Direction.right, g => rot90 (rot90 g)

/-- The rotation each directional move applies after `move_left` returns. -/
def unrotFor : Direction → Grid → Grid
  | Direction.up, g => rot90 (rot90 (rot90 g))
  | Direction.down, g => rot90 g
  | Direction.left, g => g
  | Direction.right, g => rot90 (rot90 g)

/-- The board a directional move produces before any tile is spawned: rotate,
collapse every row to the left, rotate back. -/
def slideGrid (d : Direction) (g : Grid) : Grid :=
  unrotFor d (collapseL (rotFor d g))

/-- The score update in `Game.handle_input`: the board move runs first, and
`self.score += score_increase` happens only under `if moved`. -/
def handleKey (d : Direction) (c : Choice) (g : Grid) (score : Nat) :
    Grid × Nat :=
  let r := applyMove d c g
  (r.1, if r.2.1 then score + r.2.2 else score)

/-- `np.any(self.board == 0)`. -/
def hasZero (g : Grid) : Bool :=
  (toLists g).any (fun row => row.any (fun v => v == 0))

/-- `Board.is_game_over`: false as soon as an empty cell exists; otherwise
try the four moves, in order, on a scratch board initialised with a copy of
the grid, threading the scratch board from one attempt to the next.  The
argument `r` supplies the spawn choice each attempted move would use. -/
def isGameOver (r : Nat → Choice) (g : Grid) : Bool :=
  if hasZero g then false
  else
    let t1 := moveLeft (r 0) g
    if t1.2.1 then false
    else
      let t2 := moveRight (r 1) t1.1
      if t2.2.1 then false
      else
        let t3 := moveUp (r 2) t2.1
        if t3.2.1 then false
        else
          let t4 := moveDown (r 3) t3.1
          if t4.2.1 then false else true

/-- The mutable state `Game` owns: the board and the total score. -/
structure GameState where
  board : Grid
  score : Nat

/-- `Board.is_game_over` as it acts on the live session: the four simulated
moves touch only the scratch copy `test_board`, the caller's state is left
alone whichever boolean comes out. -/
def isGameOverCall (r : Nat → Choice) (s : GameState) : Bool × GameState :=
  if hasZero s.board then (false, s)
  else
    let t1 := moveLeft (r 0) s.board
    if t1.2.1 then (false, s)
    else
      let t2 := moveRight (r 1) t1.1
      if t2.2.1 then (false, s)
      else
        let t3 := moveUp (r 2) t2.1
        if t3.2.1 then (false, s)
        else
          let t4 := moveDown (r 3) t3.1
          if t4.2.1 then (false, s) else (true, s)

/-- The all-zero board `np.zeros((4, 4))`. -/
def zeroGrid : Grid := fun _ _ => 0

/-- `Board.__init__`: a zero board with two tiles spawned into it. -/
def initBoard (c1 c2 : Choice) : Grid :=
  (addNewTile c2.1 c2.2 (addNewTile c1.1 c1.2 zeroGrid).1).1

/-- The boards a play session can reach: a freshly initialised board, or the
result of any directional move on a reachable board. -/
inductive Reachable : Grid → Prop where
  | init : ∀ c1 c2, Reachable (initBoard c1 c2)
  | step : ∀ g d c, Reachable g → Reachable (applyMove d c g).1

/-- The spec's cell invariant: empty, or a positive power of two. -/
def validCell (v : Nat) : Prop := v = 0 ∨ ∃ k, 0 < k ∧ v = 2 ^ k

/-- Every cell of the grid satisfies `validCell`. -/
def validGrid (g : Grid) : Prop := ∀ i j, validCell (g i j)

/-- Modelled from the spec: the merge scan of `collapse_row` step 2, acting
on the compacted (zero-free) sequence, re-compacted after every individual
merge, with the leftmost pair merging first and a merged tile inert for the
rest of the pass (the scan advances past the consumed right-hand tile). -/
def mergeRef : List Nat → List Nat × Nat
  | a :: b :: t =>
    if a = b ∧ a ≠ 0 then
      let r := mergeRef t
      (2 * a :: r.1, 2 * a + r.2)
    else
      let r := mergeRef (b :: t)
      (a :: r.1, r.2)
  | l => (l, 0)

/-- Modelled from the spec: `collapse_row` — remove the zeros, run the merge
scan with single-merge-per-tile, remove zeros again and pad on the right to
length `N`. -/
def collapseRowSpec (row : List Nat) : List Nat × Nat :=
  let step1 := row.filter (fun v => v != 0)
  let m := mergeRef step1
  let step3 := m.1.filter (fun v => v != 0)
  (step3 ++ List.replicate (4 - step3.length) 0, m.2)

/-- The total of all cell values, row by row. -/
def gridSum (g : Grid) : Nat :=
  (rowList g 0).sum + (rowList g 1).sum + (rowList g 2).sum + (rowList g 3).sum

/-! ### Basic facts about the grid representation -/

theorem toLists_inj {g g' : Grid} (h : toLists g = toLists g') : g = g' := by
  simp only [toLists, List.cons.injEq, and_true] at h
  funext i j
  fin_cases i <;> fin_cases j <;> tauto

theorem gridBEq_eq_true_iff {g g' : Grid} : gridBEq g g' = true ↔ g = g' := by
  constructor
  · intro h
    exact toLists_inj (of_decide_eq_true h)
  · intro h
    subst h
    exact decide_eq_true rfl

theorem rev4_rev4 (i : Idx) : rev4 (rev4 i) = i := by
  fin_cases i <;> rfl

theorem rot90_four (g : Grid) : rot90 (rot90 (rot90 (rot90 g))) = g := by
  funext i j
  simp [rot90, rev4_rev4]

theorem unrotFor_rotFor (d : Direction) (g : Grid) :
    unrotFor d (rotFor d g) = g := by
  cases d
  · funext i j
    simp [unrotFor, rotFor, rot90, rev4_rev4]
  · funext i j
    simp [unrotFor, rotFor, rot90, rev4_rev4]
  · rfl
  · funext i j
    simp [unrotFor, rotFor, rot90, rev4_rev4]

theorem gridBEq_self (g : Grid) : gridBEq g g = true :=
  gridBEq_eq_true_iff.mpr rfl

theorem moveLeft_of_eq {g : Grid} (c : Choice) (h : collapseL g = g) :
    moveLeft c g = (g, false, scoreL g) := by
  simp [moveLeft, h, gridBEq_self]

theorem moveLeft_of_ne {g : Grid} (c : Choice) (h : collapseL g ≠ g) :
    moveLeft c g = ((addNewTile c.1 c.2 (collapseL g)).1, true, scoreL g) := by
  have hb : gridBEq g (collapseL g) = false := by
    cases hb : gridBEq g (collapseL g)
    · rfl
    · exact absurd (gridBEq_eq_true_iff.mp hb).symm h
  simp [moveLeft, hb]

/-- Master description of the four directional moves: rotate, collapse every
row to the left, spawn exactly when the collapse changed the rotated board,
rotate back. -/
theorem applyMove_eq (d : Direction) (c : Choice) (g : Grid) :
    applyMove d c g =
      if collapseL (rotFor d g) = rotFor d g
      then (g, false, scoreL (rotFor d g))
      else (unrotFor d (addNewTile c.1 c.2 (collapseL (rotFor d g))).1, true,
        scoreL (rotFor d g)) := by
  have hu := unrotFor_rotFor d g
  by_cases h : collapseL (rotFor d g) = rotFor d g
  · cases d <;>
      simp_all [applyMove, moveUp, moveDown, moveLeft, moveRight,
        gridBEq_self, rotFor, unrotFor]
  · have hb : gridBEq (rotFor d g) (collapseL (rotFor d g)) = false := by
      cases hb : gridBEq (rotFor d g) (collapseL (rotFor d g))
      · rfl
      · exact absurd (gridBEq_eq_true_iff.mp hb).symm h
    cases d <;>
      simp_all [applyMove, moveUp, moveDown, moveLeft, moveRight,
        rotFor, unrotFor]

theorem applyMove_flag (d : Direction) (c : Choice) (g : Grid) :
    (applyMove d c g).2.1 = true ↔ collapseL (rotFor d g) ≠ rotFor d g := by
  rw [applyMove_eq]
  by_cases h : collapseL (rotFor d g) = rotFor d g <;> simp [h]

theorem applyMove_grid_of_not_moved {d : Direction} {c : Choice} {g : Grid}
    (h : (applyMove d c g).2.1 = false) : (applyMove d c g).1 = g := by
  by_cases hc : collapseL (rotFor d g) = rotFor d g
  · rw [applyMove_eq, if_pos hc]
  · rw [applyMove_eq, if_neg hc] at h
    simp at h

theorem applyMove_grid_of_moved {d : Direction} {c : Choice} {g : Grid}
    (h : (applyMove d c g).2.1 = true) :
    (applyMove d c g).1 =
      unrotFor d (addNewTile c.1 c.2 (collapseL (rotFor d g))).1 := by
  have hc := (applyMove_flag d c g).mp h
  rw [applyMove_eq, if_neg hc]

/-! ### List-level facts about compression and the merge loop -/

theorem sum_filter_ne_zero :
    ∀ l : List Nat, (l.filter (fun v => v != 0)).sum = l.sum := by
  intro l
  induction l with
  | nil => rfl
  | cons x t ih =>
    by_cases hx : x = 0
    · subst hx
      simp [List.filter_cons, ih]
    · rw [List.filter_cons, if_pos (by simpa using hx)]
      simp [ih]

theorem sum_compressRow (row : List Nat) : (compressRow row).sum = row.sum := by
  simp [compressRow, List.sum_append, List.sum_replicate, sum_filter_ne_zero]

theorem compressRow_length {row : List Nat} (h : row.length ≤ 4) :
    (compressRow row).length = 4 := by
  have hf : (row.filter (fun v => v != 0)).length ≤ 4 :=
    le_trans (List.length_filter_le _ _) h
  simp only [compressRow, List.length_append, List.length_replicate]
  omega

theorem mergeAt_length (rs : List Nat × Nat) (j : Nat) :
    (mergeAt rs j).1.length = rs.1.length := by
  rw [mergeAt]
  split
  · simp
  · rfl

theorem mergeRow_length (r : List Nat) : (mergeRow r).1.length = r.length := by
  show (mergeAt (mergeAt (mergeAt (r, 0) 0) 1) 2).1.length = r.length
  rw [mergeAt_length, mergeAt_length, mergeAt_length]

theorem moveLeftRow_length {row : List Nat} (h : row.length ≤ 4) :
    (moveLeftRow row).1.length = 4 := by
  have h1 : (mergeRow (compressRow row)).1.length = 4 := by
    rw [mergeRow_length, compressRow_length h]
  exact compressRow_length (le_of_eq h1)

theorem getD_lt_length {l : List Nat} {j : Nat} (h : l.getD j 0 ≠ 0) :
    j < l.length := by
  by_contra hj
  exact h (List.getD_eq_default l 0 (by omega))

theorem getD_set_ne (l : List Nat) {i j : Nat} (h : i ≠ j) (a : Nat) :
    (l.set i a).getD j 0 = l.getD j 0 := by
  simp [List.getD_eq_getElem?_getD, List.getElem?_set_ne h]

theorem sum_set_add :
    ∀ (l : List Nat) (j a : Nat), j < l.length →
      (l.set j a).sum + l.getD j 0 = l.sum + a := by
  intro l
  induction l with
  | nil => intro j a h; simp at h
  | cons x t ih =>
    intro j a h
    cases j with
    | zero => simp [List.set_cons_zero]; omega
    | succ j =>
      have ht := ih j a (by simpa using h)
      simp only [List.set_cons_succ, List.sum_cons, List.getD_cons_succ]
      omega

theorem mergeAt_sum (rs : List Nat × Nat) (j : Nat) :
    (mergeAt rs j).1.sum = rs.1.sum := by
  rw [mergeAt]
  split
  · rename_i hc
    obtain ⟨h0, he⟩ := hc
    have hj : j < rs.1.length := getD_lt_length h0
    have hj1 : j + 1 < rs.1.length := getD_lt_length (fun h => h0 (he.trans h))
    have e1 := sum_set_add rs.1 j (2 * rs.1.getD j 0) hj
    have e2 := sum_set_add (rs.1.set j (2 * rs.1.getD j 0)) (j + 1) 0
      (by rw [List.length_set]; exact hj1)
    rw [getD_set_ne _ (by omega)] at e2
    simp only at e1 e2 ⊢
    omega
  · rfl

theorem mergeRow_sum (r : List Nat) : (mergeRow r).1.sum = r.sum := by
  show (mergeAt (mergeAt (mergeAt (r, 0) 0) 1) 2).1.sum = r.sum
  rw [mergeAt_sum, mergeAt_sum, mergeAt_sum]

theorem moveLeftRow_sum (row : List Nat) :
    (moveLeftRow row).1.sum = row.sum := by
  show (compressRow (mergeRow (compressRow row)).1).sum = row.sum
  rw [sum_compressRow, mergeRow_sum, sum_compressRow]

theorem getD_mem_or_eq (l : List Nat) (j d : Nat) :
    l.getD j d ∈ l ∨ l.getD j d = d := by
  by_cases h : j < l.length
  · left
    rw [List.getD_eq_getElem?_getD, List.getElem?_eq_getElem h]
    exact List.getElem_mem h
  · right
    exact List.getD_eq_default l d (by omega)

theorem mergeAt_zero_mem {rs : List Nat × Nat} (j : Nat) (h : 0 ∈ rs.1) :
    0 ∈ (mergeAt rs j).1 := by
  rw [mergeAt]
  split
  · rename_i hc
    have hj1 : j + 1 < rs.1.length :=
      getD_lt_length (fun hz => hc.1 (hc.2.trans hz))
    exact List.mem_set _ _ (by simp [List.length_set, hj1]) 0
  · exact h

theorem mergeAt_creates_zero {rs : List Nat × Nat} {j : Nat}
    (h : mergeAt rs j ≠ rs) : 0 ∈ (mergeAt rs j).1 := by
  rw [mergeAt] at h ⊢
  split
  · rename_i hc
    have hj1 : j + 1 < rs.1.length :=
      getD_lt_length (fun hz => hc.1 (hc.2.trans hz))
    exact List.mem_set _ _ (by simp [List.length_set, hj1]) 0
  · rename_i hnc
    rw [if_neg hnc] at h
    exact absurd rfl h

/-! ### Reconstructing rows of length four -/

theorem list_eq_four {l : List Nat} (h : l.length = 4) :
    [l.getD 0 0, l.getD 1 0, l.getD 2 0, l.getD 3 0] = l := by
  match l, h with
  | [a, b, c, d], _ => rfl

theorem rowList_getD (g : Grid) (i j : Idx) :
    (rowList g i).getD j.val 0 = g i j := by
  fin_cases j <;> rfl

theorem rowList_length (g : Grid) (i : Idx) : (rowList g i).length = 4 := rfl

theorem rowList_collapseL (g : Grid) (i : Idx) :
    rowList (collapseL g) i = (moveLeftRow (rowList g i)).1 := by
  have h4 : (moveLeftRow (rowList g i)).1.length = 4 :=
    moveLeftRow_length (by rw [rowList_length])
  show [listToRow (moveLeftRow (rowList g i)).1 0,
    listToRow (moveLeftRow (rowList g i)).1 1,
    listToRow (moveLeftRow (rowList g i)).1 2,
    listToRow (moveLeftRow (rowList g i)).1 3] = (moveLeftRow (rowList g i)).1
  exact list_eq_four h4

theorem zero_mem_rowList {g : Grid} {i : Idx} (h : 0 ∈ rowList g i) :
    ∃ j : Idx, g i j = 0 := by
  simp only [rowList, List.mem_cons, List.not_mem_nil, or_false] at h
  rcases h with h | h | h | h
  · exact ⟨0, h.symm⟩
  · exact ⟨1, h.symm⟩
  · exact ⟨2, h.symm⟩
  · exact ⟨3, h.symm⟩

/-! ### The implemented merge loop against the spec's reference scan -/

theorem mergeRow_unfold (r : List Nat) :
    mergeRow r = mergeAt (mergeAt (mergeAt (r, 0) 0) 1) 2 := rfl

theorem merge_equiv_nil :
    compressRow (mergeRow [0, 0, 0, 0]).1 = compressRow (mergeRef []).1 ∧
      (mergeRow [0, 0, 0, 0]).2 = (mergeRef []).2 := by
  constructor <;> simp [mergeRow_unfold, mergeAt, mergeRef, compressRow]

theorem merge_equiv_one (a : Nat) (ha : a ≠ 0) :
    compressRow (mergeRow [a, 0, 0, 0]).1 = compressRow (mergeRef [a]).1 ∧
      (mergeRow [a, 0, 0, 0]).2 = (mergeRef [a]).2 := by
  constructor <;> simp [mergeRow_unfold, mergeAt, mergeRef, compressRow, ha]

theorem merge_equiv_two (a b : Nat) (ha : a ≠ 0) (hb : b ≠ 0) :
    compressRow (mergeRow [a, b, 0, 0]).1 = compressRow (mergeRef [a, b]).1 ∧
      (mergeRow [a, b, 0, 0]).2 = (mergeRef [a, b]).2 := by
  by_cases hab : a = b
  · subst hab
    constructor <;>
      simp [mergeRow_unfold, mergeAt, mergeRef, compressRow, ha,
        Nat.mul_eq_zero]
  · constructor <;>
      simp [mergeRow_unfold, mergeAt, mergeRef, compressRow, ha, hb, hab]

theorem merge_equiv_three (a b c : Nat) (ha : a ≠ 0) (hb : b ≠ 0)
    (hc : c ≠ 0) :
    compressRow (mergeRow [a, b, c, 0]).1 = compressRow (mergeRef [a, b, c]).1 ∧
      (mergeRow [a, b, c, 0]).2 = (mergeRef [a, b, c]).2 := by
  by_cases hab : a = b
  · subst hab
    constructor <;>
      simp [mergeRow_unfold, mergeAt, mergeRef, compressRow, ha, hc,
        Nat.mul_eq_zero]
  · by_cases hbc : b = c
    · subst hbc
      constructor <;>
        simp [mergeRow_unfold, mergeAt, mergeRef, compressRow, ha, hb, hab,
          Nat.mul_eq_zero]
    · constructor <;>
        simp [mergeRow_unfold, mergeAt, mergeRef, compressRow, ha, hb, hc,
          hab, hbc]

theorem merge_equiv_four (a b c d : Nat) (ha : a ≠ 0) (hb : b ≠ 0)
    (hc : c ≠ 0) (hd : d ≠ 0) :
    compressRow (mergeRow [a, b, c, d]).1 = compressRow (mergeRef [a, b, c, d]).1 ∧
      (mergeRow [a, b, c, d]).2 = (mergeRef [a, b, c, d]).2 := by
  by_cases hab : a = b
  · subst hab
    by_cases hcd : c = d
    · subst hcd
      constructor <;>
        simp [mergeRow_unfold, mergeAt, mergeRef, compressRow, ha, hc,
          Nat.mul_eq_zero]
    · constructor <;>
        simp [mergeRow_unfold, mergeAt, mergeRef, compressRow, ha, hc, hd,
          hcd, Nat.mul_eq_zero]
  · by_cases hbc : b = c
    · subst hbc
      constructor <;>
        simp [mergeRow_unfold, mergeAt, mergeRef, compressRow, ha, hb, hd,
          hab, Nat.mul_eq_zero]
    · by_cases hcd : c = d
      · subst hcd
        constructor <;>
          simp [mergeRow_unfold, mergeAt, mergeRef, compressRow, ha, hb, hc,
            hab, hbc, Nat.mul_eq_zero]
      · constructor <;>
          simp [mergeRow_unfold, mergeAt, mergeRef, compressRow, ha, hb, hc, hd,
            hab, hbc, hcd, Nat.mul_eq_zero]

/-- On any row of four integers, `_move_left_row` computes exactly the spec's
`collapse_row`: compact, merge left-to-right with each tile merging at most
once and the leftmost pair first, compact again. -/
theorem moveLeftRow_eq_spec {row : List Nat} (h : row.length = 4) :
    moveLeftRow row = collapseRowSpec row := by
  have hspec : collapseRowSpec row =
      (compressRow (mergeRef (row.filter (fun v => v != 0))).1,
        (mergeRef (row.filter (fun v => v != 0))).2) := rfl
  have himp : moveLeftRow row =
      (compressRow (mergeRow (row.filter (fun v => v != 0) ++
        List.replicate (4 - (row.filter (fun v => v != 0)).length) 0)).1,
        (mergeRow (row.filter (fun v => v != 0) ++
          List.replicate (4 - (row.filter (fun v => v != 0)).length) 0)).2) := rfl
  rw [hspec, himp]
  have hnz : ∀ x ∈ row.filter (fun v => v != 0), x ≠ 0 := by
    intro x hx
    simpa using List.of_mem_filter hx
  have hlen : (row.filter (fun v => v != 0)).length ≤ 4 :=
    le_trans (List.length_filter_le _ _) (le_of_eq h)
  generalize hg : row.filter (fun v => v != 0) = nz at hnz hlen ⊢
  clear hg hspec himp h
  match nz, hnz, hlen with
  | [], _, _ =>
    exact Prod.ext merge_equiv_nil.1 merge_equiv_nil.2
  | [a], hnz, _ =>
    have ha : a ≠ 0 := hnz a (by simp)
    exact Prod.ext (merge_equiv_one a ha).1 (merge_equiv_one a ha).2
  | [a, b], hnz, _ =>
    have ha : a ≠ 0 := hnz a (by simp)
    have hb : b ≠ 0 := hnz b (by simp)
    exact Prod.ext (merge_equiv_two a b ha hb).1 (merge_equiv_two a b ha hb).2
  | [a, b, c], hnz, _ =>
    have ha : a ≠ 0 := hnz a (by simp)
    have hb : b ≠ 0 := hnz b (by simp)
    have hc : c ≠ 0 := hnz c (by simp)
    exact Prod.ext (merge_equiv_three a b c ha hb hc).1
      (merge_equiv_three a b c ha hb hc).2
  | [a, b, c, d], hnz, _ =>
    have ha : a ≠ 0 := hnz a (by simp)
    have hb : b ≠ 0 := hnz b (by simp)
    have hc : c ≠ 0 := hnz c (by simp)
    have hd : d ≠ 0 := hnz d (by simp)
    exact Prod.ext (merge_equiv_four a b c d ha hb hc hd).1
      (merge_equiv_four a b c d ha hb hc hd).2
  | a :: b :: c :: d :: e :: t, _, hlen =>
    simp at hlen

/-! ### A changed row keeps an empty cell until the spawn fills it -/

theorem mergeRow_zero_mem {r : List Nat} (h : 0 ∈ r) : 0 ∈ (mergeRow r).1 := by
  rw [mergeRow_unfold]
  exact mergeAt_zero_mem 2 (mergeAt_zero_mem 1 (mergeAt_zero_mem 0 h))

theorem mergeRow_unchanged_or_zero (r : List Nat) :
    mergeRow r = (r, 0) ∨ 0 ∈ (mergeRow r).1 := by
  rw [mergeRow_unfold]
  by_cases h0 : mergeAt (r, 0) 0 = (r, 0)
  · rw [h0]
    by_cases h1 : mergeAt (r, 0) 1 = (r, 0)
    · rw [h1]
      by_cases h2 : mergeAt (r, 0) 2 = (r, 0)
      · exact Or.inl h2
      · exact Or.inr (mergeAt_creates_zero h2)
    · exact Or.inr (mergeAt_zero_mem 2 (mergeAt_creates_zero h1))
  · exact Or.inr (mergeAt_zero_mem 2 (mergeAt_zero_mem 1 (mergeAt_creates_zero h0)))

theorem zero_mem_compressRow {l : List Nat} (hl : l.length = 4) (h : 0 ∈ l) :
    0 ∈ compressRow l := by
  have hf : (l.filter (fun v => v != 0)).length < l.length :=
    List.length_filter_lt_length_iff_exists.mpr ⟨0, h, by simp⟩
  apply List.mem_append_right
  rw [List.mem_replicate]
  omega

theorem compressRow_of_no_zero {l : List Nat} (hl : l.length = 4)
    (h : ∀ x ∈ l, x ≠ 0) : compressRow l = l := by
  have hf : l.filter (fun v => v != 0) = l :=
    List.filter_eq_self.mpr (fun a ha => by simpa using h a ha)
  rw [compressRow]
  simp only [hf, hl]
  simp

theorem moveLeftRow_unchanged_or_zero {row : List Nat} (h : row.length = 4) :
    (moveLeftRow row).1 = row ∨ 0 ∈ (moveLeftRow row).1 := by
  have hm4 : (mergeRow (compressRow row)).1.length = 4 := by
    rw [mergeRow_length, compressRow_length (le_of_eq h)]
  by_cases hz : 0 ∈ row
  · right
    have h1 : 0 ∈ compressRow row := zero_mem_compressRow h hz
    exact zero_mem_compressRow hm4 (mergeRow_zero_mem h1)
  · have hnz : ∀ x ∈ row, x ≠ 0 := fun x hx hx0 => hz (hx0 ▸ hx)
    have hcr : compressRow row = row := compressRow_of_no_zero h hnz
    rcases mergeRow_unchanged_or_zero (compressRow row) with hu | h0
    · left
      show compressRow (mergeRow (compressRow row)).1 = row
      rw [hu]
      show compressRow (compressRow row) = row
      rw [hcr, hcr]
    · right
      exact zero_mem_compressRow hm4 h0

theorem rowList_eq_cells {g g' : Grid} {i : Idx}
    (h : rowList g i = rowList g' i) : ∀ j, g i j = g' i j := by
  simp only [rowList, List.cons.injEq, and_true] at h
  intro j
  fin_cases j <;> tauto

theorem collapseL_eq_of_rows {g : Grid}
    (h : ∀ i, rowList (collapseL g) i = rowList g i) : collapseL g = g := by
  funext i j
  exact rowList_eq_cells (h i) j

theorem collapseL_zero_cell {g : Grid} (h : collapseL g ≠ g) :
    ∃ i j : Idx, collapseL g i j = 0 := by
  have hrow : ∃ i, rowList (collapseL g) i ≠ rowList g i := by
    by_contra hc
    push_neg at hc
    exact h (collapseL_eq_of_rows hc)
  obtain ⟨i, hi⟩ := hrow
  rcases moveLeftRow_unchanged_or_zero (rowList_length g i) with hu | h0
  · rw [rowList_collapseL] at hi
    exact absurd hu hi
  · rw [← rowList_collapseL] at h0
    obtain ⟨j, hj⟩ := zero_mem_rowList h0
    exact ⟨i, j, hj⟩

theorem rot90_zero_cell {g : Grid} (h : ∃ i j : Idx, g i j = 0) :
    ∃ i j : Idx, rot90 g i j = 0 := by
  obtain ⟨i, j, hij⟩ := h
  exact ⟨rev4 j, i, by simpa [rot90, rev4_rev4] using hij⟩

theorem unrotFor_zero_cell (d : Direction) {g : Grid}
    (h : ∃ i j : Idx, g i j = 0) : ∃ i j : Idx, unrotFor d g i j = 0 := by
  cases d
  · exact rot90_zero_cell (rot90_zero_cell (rot90_zero_cell h))
  · exact rot90_zero_cell h
  · exact h
  · exact rot90_zero_cell (rot90_zero_cell h)

/-! ### Spawning -/

theorem allPos_mem : ∀ p : Idx × Idx, p ∈ allPos := by decide

theorem emptyCells_ne_nil {g : Grid} (h : ∃ i j : Idx, g i j = 0) :
    emptyCells g ≠ [] := by
  obtain ⟨i, j, hij⟩ := h
  intro hnil
  have hm : (i, j) ∈ emptyCells g :=
    List.mem_filter.mpr ⟨allPos_mem _, by simpa using hij⟩
  rw [hnil] at hm
  exact absurd hm (List.not_mem_nil _)

theorem emptyCells_eq_nil {g : Grid} (h : ∀ i j : Idx, g i j ≠ 0) :
    emptyCells g = [] := by
  rw [emptyCells, List.filter_eq_nil_iff]
  intro p _
  simpa using h p.1 p.2

theorem mem_emptyCells {g : Grid} {p : Idx × Idx} (h : p ∈ emptyCells g) :
    g p.1 p.2 = 0 := by
  have hp := List.of_mem_filter h
  simpa using hp

theorem getD_mem_of_lt {α : Type} (l : List α) (n : Nat) (d : α)
    (h : n < l.length) : l.getD n d ∈ l := by
  rw [List.getD_eq_getElem?_getD, List.getElem?_eq_getElem h]
  exact List.getElem_mem h

theorem addNewTile_spec {g : Grid} (c : Nat) (four : Bool)
    (h : emptyCells g ≠ []) :
    ∃ p : Idx × Idx, p ∈ emptyCells g ∧
      addNewTile c four g = (setCell g p.1 p.2 (spawnVal four), true) := by
  have hpos : 0 < (emptyCells g).length := List.length_pos.mpr h
  have hne : (emptyCells g).isEmpty = false := by
    cases he : emptyCells g with
    | nil => exact absurd he h
    | cons p t => rfl
  refine ⟨(emptyCells g).getD (c % (emptyCells g).length) (0, 0), ?_, ?_⟩
  · exact getD_mem_of_lt _ _ _ (Nat.mod_lt _ hpos)
  · rw [addNewTile]
    simp only [hne]
    simp

theorem addNewTile_full {g : Grid} (c : Nat) (four : Bool)
    (h : ∀ i j : Idx, g i j ≠ 0) : addNewTile c four g = (g, false) := by
  rw [addNewTile]
  simp [emptyCells_eq_nil h]

/-! ### Cell sums -/

theorem rev4_zero : rev4 0 = 3 := rfl

theorem rev4_one : rev4 1 = 2 := rfl

theorem rev4_two : rev4 2 = 1 := rfl

theorem rev4_three : rev4 3 = 0 := rfl

theorem gridSum_rot90 (g : Grid) : gridSum (rot90 g) = gridSum g := by
  simp only [gridSum, rowList, rot90, rev4_zero, rev4_one, rev4_two, rev4_three,
    List.sum_cons, List.sum_nil]
  ring

theorem gridSum_rotFor (d : Direction) (g : Grid) :
    gridSum (rotFor d g) = gridSum g := by
  cases d <;> simp [rotFor, gridSum_rot90]

theorem gridSum_unrotFor (d : Direction) (g : Grid) :
    gridSum (unrotFor d g) = gridSum g := by
  cases d <;> simp [unrotFor, gridSum_rot90]

theorem gridSum_collapseL (g : Grid) : gridSum (collapseL g) = gridSum g := by
  rw [gridSum, gridSum, rowList_collapseL g 0, rowList_collapseL g 1,
    rowList_collapseL g 2, rowList_collapseL g 3, moveLeftRow_sum,
    moveLeftRow_sum, moveLeftRow_sum, moveLeftRow_sum]

theorem gridSum_setCell {g : Grid} {i j : Idx} {v : Nat} (h : g i j = 0) :
    gridSum (setCell g i j v) = gridSum g + v := by
  fin_cases i <;> fin_cases j <;>
    simp_all +decide [gridSum, rowList, setCell] <;> omega

/-! ### Preservation of the power-of-two invariant -/

theorem validCell_zero : validCell 0 := Or.inl rfl

theorem validCell_spawnVal (four : Bool) : validCell (spawnVal four) := by
  cases four
  · exact Or.inr ⟨1, by omega, rfl⟩
  · exact Or.inr ⟨2, by omega, rfl⟩

theorem validCell_double {v : Nat} (h : validCell v) : validCell (2 * v) := by
  rcases h with h | ⟨k, hk, hv⟩
  · exact Or.inl (by omega)
  · exact Or.inr ⟨k + 1, by omega, by rw [hv, pow_succ]; ring⟩

theorem validRow_compressRow {l : List Nat} (h : ∀ x ∈ l, validCell x) :
    ∀ x ∈ compressRow l, validCell x := by
  intro x hx
  rcases List.mem_append.mp hx with hx | hx
  · exact h x (List.mem_of_mem_filter hx)
  · rw [List.mem_replicate] at hx
    rw [hx.2]
    exact validCell_zero

theorem validRow_mergeAt {rs : List Nat × Nat} {j : Nat}
    (h : ∀ x ∈ rs.1, validCell x) : ∀ x ∈ (mergeAt rs j).1, validCell x := by
  rw [mergeAt]
  split
  · intro x hx
    rcases List.mem_or_eq_of_mem_set hx with hx | hx
    · rcases List.mem_or_eq_of_mem_set hx with hx | hx
      · exact h x hx
      · rw [hx]
        apply validCell_double
        rcases getD_mem_or_eq rs.1 j 0 with hm | hm
        · exact h _ hm
        · rw [hm]
          exact validCell_zero
    · rw [hx]
      exact validCell_zero
  · exact h

theorem validRow_moveLeftRow {row : List Nat} (h : ∀ x ∈ row, validCell x) :
    ∀ x ∈ (moveLeftRow row).1, validCell x := by
  have h1 := validRow_compressRow h
  have h2 : ∀ x ∈ (mergeRow (compressRow row)).1, validCell x := by
    rw [mergeRow_unfold]
    exact validRow_mergeAt (validRow_mergeAt (validRow_mergeAt h1))
  exact validRow_compressRow h2

theorem validRow_rowList {g : Grid} (h : validGrid g) (i : Idx) :
    ∀ x ∈ rowList g i, validCell x := by
  intro x hx
  simp only [rowList, List.mem_cons, List.not_mem_nil, or_false] at hx
  rcases hx with hx | hx | hx | hx <;> rw [hx] <;> exact h i _

theorem validGrid_collapseL {g : Grid} (h : validGrid g) :
    validGrid (collapseL g) := by
  intro i j
  show validCell ((moveLeftRow (rowList g i)).1.getD j.val 0)
  rcases getD_mem_or_eq (moveLeftRow (rowList g i)).1 j.val 0 with hm | hm
  · exact validRow_moveLeftRow (validRow_rowList h i) _ hm
  · rw [hm]
    exact validCell_zero

theorem validGrid_rot90 {g : Grid} (h : validGrid g) : validGrid (rot90 g) :=
  fun i j => h j (rev4 i)

theorem validGrid_rotFor (d : Direction) {g : Grid} (h : validGrid g) :
    validGrid (rotFor d g) := by
  cases d <;>
    simp only [rotFor] <;>
    repeat first
      | exact h
      | apply validGrid_rot90

theorem validGrid_unrotFor (d : Direction) {g : Grid} (h : validGrid g) :
    validGrid (unrotFor d g) := by
  cases d <;>
    simp only [unrotFor] <;>
    repeat first
      | exact h
      | apply validGrid_rot90

theorem validGrid_setCell {g : Grid} {i j : Idx} {v : Nat} (hv : validCell v)
    (h : validGrid g) : validGrid (setCell g i j v) := by
  intro a b
  show validCell (if a = i ∧ b = j then v else g a b)
  split
  · exact hv
  · exact h a b

theorem validGrid_addNewTile (c : Nat) (four : Bool) {g : Grid}
    (h : validGrid g) : validGrid (addNewTile c four g).1 := by
  by_cases he : emptyCells g = []
  · have hb : (emptyCells g).isEmpty = true := by simp [he]
    rw [addNewTile]
    simp only [hb]
    simpa using h
  · obtain ⟨p, _, hre⟩ := addNewTile_spec c four he
    rw [hre]
    exact validGrid_setCell (validCell_spawnVal four) h

theorem validGrid_zeroGrid : validGrid zeroGrid := fun _ _ => validCell_zero

theorem validGrid_initBoard (c1 c2 : Choice) : validGrid (initBoard c1 c2) :=
  validGrid_addNewTile _ _ (validGrid_addNewTile _ _ validGrid_zeroGrid)

theorem validGrid_applyMove (d : Direction) (c : Choice) {g : Grid}
    (h : validGrid g) : validGrid (applyMove d c g).1 := by
  rw [applyMove_eq]
  split
  · exact h
  · exact validGrid_unrotFor d
      (validGrid_addNewTile _ _ (validGrid_collapseL (validGrid_rotFor d h)))

theorem validGrid_reachable {g : Grid} (h : Reachable g) : validGrid g := by
  induction h with
  | init c1 c2 => exact validGrid_initBoard c1 c2
  | step g d c _ ih => exact validGrid_applyMove d c ih

/-! ### Terminal detection -/

theorem hasZero_eq_false_iff {g : Grid} :
    hasZero g = false ↔ ∀ i j : Idx, g i j ≠ 0 := by
  constructor
  · intro h i j
    fin_cases i <;> fin_cases j <;> (simp [hasZero, toLists] at h; tauto)
  · intro h
    simp only [hasZero, toLists, List.any_cons, List.any_nil,
      Bool.or_false, Bool.or_eq_false_iff, beq_eq_false_iff_ne, ne_eq]
    exact ⟨⟨h 0 0, h 0 1, h 0 2, h 0 3⟩, ⟨h 1 0, h 1 1, h 1 2, h 1 3⟩,
      ⟨h 2 0, h 2 1, h 2 2, h 2 3⟩, ⟨h 3 0, h 3 1, h 3 2, h 3 3⟩⟩

theorem applyMove_flag_false_iff {d : Direction} {c : Choice} {g : Grid} :
    (applyMove d c g).2.1 = false ↔ collapseL (rotFor d g) = rotFor d g := by
  rw [applyMove_eq]
  by_cases h : collapseL (rotFor d g) = rotFor d g <;> simp [h]

theorem moveRight_of_eq (c : Choice) {g : Grid}
    (h : collapseL (rot90 (rot90 g)) = rot90 (rot90 g)) :
    moveRight c g = (g, false, scoreL (rot90 (rot90 g))) := by
  have h2 : applyMove Direction.right c g = (g, false, scoreL (rot90 (rot90 g))) := by
    rw [applyMove_eq]
    exact if_pos h
  exact h2

theorem moveUp_of_eq (c : Choice) {g : Grid}
    (h : collapseL (rot90 g) = rot90 g) :
    moveUp c g = (g, false, scoreL (rot90 g)) := by
  have h2 : applyMove Direction.up c g = (g, false, scoreL (rot90 g)) := by
    rw [applyMove_eq]
    exact if_pos h
  exact h2

theorem moveDown_of_eq (c : Choice) {g : Grid}
    (h : collapseL (rot90 (rot90 (rot90 g))) = rot90 (rot90 (rot90 g))) :
    moveDown c g = (g, false, scoreL (rot90 (rot90 (rot90 g)))) := by
  have h2 : applyMove Direction.down c g =
      (g, false, scoreL (rot90 (rot90 (rot90 g)))) := by
    rw [applyMove_eq]
    exact if_pos h
  exact h2

theorem moveLeft_flag_of_ne (c : Choice) {g : Grid} (h : collapseL g ≠ g) :
    (moveLeft c g).2.1 = true := by
  rw [moveLeft_of_ne c h]

theorem moveLeft_flag_false_iff {c : Choice} {g : Grid} :
    (moveLeft c g).2.1 = false ↔ collapseL g = g := by
  by_cases h : collapseL g = g
  · simp [moveLeft_of_eq c h, h]
  · simp [moveLeft_of_ne c h, h]

theorem moveRight_flag_of_ne (c : Choice) {g : Grid}
    (h : collapseL (rot90 (rot90 g)) ≠ rot90 (rot90 g)) :
    (moveRight c g).2.1 = true := by
  have h2 : (applyMove Direction.right c g).2.1 = true := by
    rcases hb : (applyMove Direction.right c g).2.1 with _ | _
    · exact absurd (applyMove_flag_false_iff.mp hb) h
    · rfl
  exact h2

theorem moveUp_flag_of_ne (c : Choice) {g : Grid}
    (h : collapseL (rot90 g) ≠ rot90 g) : (moveUp c g).2.1 = true := by
  have h2 : (applyMove Direction.up c g).2.1 = true := by
    rcases hb : (applyMove Direction.up c g).2.1 with _ | _
    · exact absurd (applyMove_flag_false_iff.mp hb) h
    · rfl
  exact h2

theorem moveDown_flag_of_ne (c : Choice) {g : Grid}
    (h : collapseL (rot90 (rot90 (rot90 g))) ≠ rot90 (rot90 (rot90 g))) :
    (moveDown c g).2.1 = true := by
  have h2 : (applyMove Direction.down c g).2.1 = true := by
    rcases hb : (applyMove Direction.down c g).2.1 with _ | _
    · exact absurd (applyMove_flag_false_iff.mp hb) h
    · rfl
  exact h2

theorem rowList_rot90 (g : Grid) (i : Idx) :
    rowList (rot90 g) i =
      [g 0 (rev4 i), g 1 (rev4 i), g 2 (rev4 i), g 3 (rev4 i)] := rfl

theorem rowList_rot180 (g : Grid) (i : Idx) :
    rowList (rot90 (rot90 g)) i =
      [g (rev4 i) 3, g (rev4 i) 2, g (rev4 i) 1, g (rev4 i) 0] := rfl

theorem rowList_rot270 (g : Grid) (i : Idx) :
    rowList (rot90 (rot90 (rot90 g))) i = [g 3 i, g 2 i, g 1 i, g 0 i] := by
  simp [rowList, rot90, rev4_rev4, rev4_zero, rev4_one, rev4_two, rev4_three]

/-- A full row with no two adjacent equal tiles is a fixed point of
`_move_left_row`. -/
theorem moveLeftRow_fixed {a b c d : Nat} (ha : a ≠ 0) (hb : b ≠ 0)
    (hc : c ≠ 0) (hd : d ≠ 0) (hab : a ≠ b) (hbc : b ≠ c) (hcd : c ≠ d) :
    (moveLeftRow [a, b, c, d]).1 = [a, b, c, d] := by
  simp [moveLeftRow, mergeRow_unfold, mergeAt, compressRow, ha, hb, hc, hd,
    hab, hbc, hcd]

/-- `is_game_over` holds exactly when the board is full and no direction's
move would report `moved = true`, whatever spawn randomness is supplied. -/
theorem isGameOver_iff (r : Nat → Choice) (g : Grid) :
    isGameOver r g = true ↔
      hasZero g = false ∧ ∀ (d : Direction) (c : Choice),
        (applyMove d c g).2.1 = false := by
  rw [isGameOver]
  cases hz : hasZero g with
  | true => simp [hz]
  | false =>
    rw [if_neg (by simp [hz])]
    by_cases h1 : collapseL g = g
    · rw [moveLeft_of_eq (r 0) h1]
      simp only [if_neg Bool.false_ne_true]
      by_cases h2 : collapseL (rot90 (rot90 g)) = rot90 (rot90 g)
      · rw [moveRight_of_eq (r 1) h2]
        simp only [if_neg Bool.false_ne_true]
        by_cases h3 : collapseL (rot90 g) = rot90 g
        · rw [moveUp_of_eq (r 2) h3]
          simp only [if_neg Bool.false_ne_true]
          by_cases h4 : collapseL (rot90 (rot90 (rot90 g))) = rot90 (rot90 (rot90 g))
          · rw [moveDown_of_eq (r 3) h4]
            simp only [if_neg Bool.false_ne_true]
            constructor
            · intro _
              refine ⟨by trivial, fun d c => applyMove_flag_false_iff.mpr ?_⟩
              cases d
              · exact h3
              · exact h4
              · exact h1
              · exact h2
            · intro _
              trivial
          · simp only [moveDown_flag_of_ne (r 3) h4, if_pos rfl]
            constructor
            · intro hfalse
              exact absurd hfalse (by simp)
            · intro hall
              have hf := hall.2 Direction.down (r 3)
              rw [applyMove_flag_false_iff] at hf
              exact absurd hf h4
        · simp only [moveUp_flag_of_ne (r 2) h3, if_pos rfl]
          constructor
          · intro hfalse
            exact absurd hfalse (by simp)
          · intro hall
            have hf := hall.2 Direction.up (r 2)
            rw [applyMove_flag_false_iff] at hf
            exact absurd hf h3
      · simp only [moveRight_flag_of_ne (r 1) h2, if_pos rfl]
        constructor
        · intro hfalse
          exact absurd hfalse (by simp)
        · intro hall
          have hf := hall.2 Direction.right (r 1)
          rw [applyMove_flag_false_iff] at hf
          exact absurd hf h2
    · simp only [moveLeft_flag_of_ne (r 0) h1, if_pos rfl]
      constructor
      · intro hfalse
        exact absurd hfalse (by simp)
      · intro hall
        have hf := hall.2 Direction.left (r 0)
        rw [applyMove_flag_false_iff] at hf
        exact absurd hf h1

/-! ### Concrete test boards -/

/-- A board whose only action is merging the two 2s in the top row. -/
def cg1 : Grid :=
  ofLists [[2, 2, 0, 0], [0, 0, 0, 0], [0, 0, 0, 0], [0, 0, 0, 0]]

/-- A full board whose top row merges exactly once under `move_left` and
whose other rows cannot change: the move frees one cell and the spawn
refills it. -/
def cgFullAfter : Grid :=
  ofLists [[2, 2, 4, 8], [16, 32, 64, 128], [256, 512, 1024, 2048],
    [4, 8, 16, 32]]

/-- A board whose top row is four equal tiles. -/
def cgFourTwos : Grid :=
  ofLists [[2, 2, 2, 2], [0, 0, 0, 0], [0, 0, 0, 0], [0, 0, 0, 0]]

/-- A full 2/4 checkerboard: no empty cell and no two equal orthogonal
neighbours. -/
def checkerGrid : Grid :=
  fun i j => if (i.val + j.val) % 2 = 0 then 2 else 4

/-- A board with every cell occupied. -/
def fullGrid : Grid := fun _ _ => 2

theorem addNewTile_other_cells (c : Nat) (four : Bool) (g : Grid) :
    ∃ q : Idx × Idx, ∀ p : Idx × Idx, p ≠ q →
      (addNewTile c four g).1 p.1 p.2 = g p.1 p.2 := by
  by_cases he : emptyCells g = []
  · refine ⟨(0, 0), fun p _ => ?_⟩
    have hb : (emptyCells g).isEmpty = true := by simp [he]
    rw [addNewTile]
    simp only [hb]
    simp
  · obtain ⟨q, _, hre⟩ := addNewTile_spec c four he
    refine ⟨q, fun p hp => ?_⟩
    rw [hre]
    show (if p.1 = q.1 ∧ p.2 = q.2 then spawnVal four else g p.1 p.2) =
      g p.1 p.2
    rw [if_neg]
    rintro ⟨e1, e2⟩
    exact hp (Prod.ext e1 e2)

/-! ### The claims -/

/-- Claim C1, counterexample: on a board whose top row is `[2,2,0,0]`, the
code's `move_left` itself spawns a tile — it reports `moved = true` and its
result differs from the pure slide/merge of the board: cell `(0,1)` is `0`
after sliding and merging alone, yet holds the spawned `2` after
`move_left`. -/
theorem c1_counterexample :
    (moveLeft (0, false) cg1).2.1 = true ∧
      toLists (moveLeft (0, false) cg1).1 ≠ toLists (collapseL cg1) ∧
      collapseL cg1 0 1 = 0 ∧ (moveLeft (0, false) cg1).1 0 1 = 2 := by
  decide

/-- Claim C1 (amended): every directional move mutates the grid by sliding
and merging and, when it reports `moved = true`, itself spawns the new tile
into the collapsed board; it does not update the total score — the caller
(`Game.handle_input`) adds `delta_score` to the score exactly when `moved`
is true, and when `moved` is false both the grid and the score are
unchanged. -/
theorem c1_move_effects (d : Direction) (c : Choice) (g : Grid) (s : Nat) :
    ((applyMove d c g).2.1 = false →
      (applyMove d c g).1 = g ∧ (handleKey d c g s).2 = s) ∧
    ((applyMove d c g).2.1 = true →
      (applyMove d c g).1 =
        unrotFor d (addNewTile c.1 c.2 (collapseL (rotFor d g))).1 ∧
      (handleKey d c g s).2 = s + (applyMove d c g).2.2) := by
  constructor
  · intro h
    refine ⟨applyMove_grid_of_not_moved h, ?_⟩
    simp [handleKey, h]
  · intro h
    refine ⟨applyMove_grid_of_moved h, ?_⟩
    simp [handleKey, h]

theorem c1_witness :
    (applyMove Direction.left (0, false) cg1).2.1 = true ∧
      (applyMove Direction.left (0, false) cg1).1 =
        unrotFor Direction.left
          (addNewTile 0 false (collapseL (rotFor Direction.left cg1))).1 ∧
      (handleKey Direction.left (0, false) cg1 7).2 =
        7 + (applyMove Direction.left (0, false) cg1).2.2 :=
  ⟨by decide, (c1_move_effects Direction.left (0, false) cg1 7).2 (by decide)⟩

/-- Claim C2: `is_game_over` is true exactly when the board has no empty
cell and none of the four directional moves would report `moved = true`
(whatever randomness the simulated moves would use); on any board with a
zero cell it is false; on any full board with no two orthogonally adjacent
equal cells — in particular the 2/4 checkerboard — it is true. -/
theorem c2_game_over_characterisation (r : Nat → Choice) (g : Grid) :
    (isGameOver r g = true ↔
      hasZero g = false ∧ ∀ (d : Direction) (c : Choice),
        (applyMove d c g).2.1 = false) ∧
    (hasZero g = true → isGameOver r g = false) ∧
    ((∀ i j : Idx, g i j ≠ 0) →
      (∀ j : Idx, g 0 j ≠ g 1 j ∧ g 1 j ≠ g 2 j ∧ g 2 j ≠ g 3 j) →
      (∀ i : Idx, g i 0 ≠ g i 1 ∧ g i 1 ≠ g i 2 ∧ g i 2 ≠ g i 3) →
      isGameOver r g = true) ∧
    isGameOver r checkerGrid = true := by
  have hgen : ∀ g' : Grid, (∀ i j : Idx, g' i j ≠ 0) →
      (∀ j : Idx, g' 0 j ≠ g' 1 j ∧ g' 1 j ≠ g' 2 j ∧ g' 2 j ≠ g' 3 j) →
      (∀ i : Idx, g' i 0 ≠ g' i 1 ∧ g' i 1 ≠ g' i 2 ∧ g' i 2 ≠ g' i 3) →
      isGameOver r g' = true := by
    intro g' hfull hv hh
    rw [isGameOver_iff]
    refine ⟨hasZero_eq_false_iff.mpr hfull, fun d c =>
      applyMove_flag_false_iff.mpr ?_⟩
    cases d
    · apply collapseL_eq_of_rows
      intro i
      simp only [rotFor]
      rw [rowList_collapseL, rowList_rot90,
        moveLeftRow_fixed (hfull 0 _) (hfull 1 _) (hfull 2 _) (hfull 3 _)
          (hv (rev4 i)).1 (hv (rev4 i)).2.1 (hv (rev4 i)).2.2]
    · apply collapseL_eq_of_rows
      intro i
      simp only [rotFor]
      rw [rowList_collapseL, rowList_rot270,
        moveLeftRow_fixed (hfull 3 _) (hfull 2 _) (hfull 1 _) (hfull 0 _)
          (Ne.symm (hv i).2.2) (Ne.symm (hv i).2.1) (Ne.symm (hv i).1)]
    · apply collapseL_eq_of_rows
      intro i
      simp only [rotFor]
      rw [rowList_collapseL,
        show rowList g' i = [g' i 0, g' i 1, g' i 2, g' i 3] from rfl,
        moveLeftRow_fixed (hfull i 0) (hfull i 1) (hfull i 2) (hfull i 3)
          (hh i).1 (hh i).2.1 (hh i).2.2]
    · apply collapseL_eq_of_rows
      intro i
      simp only [rotFor]
      rw [rowList_collapseL, rowList_rot180,
        moveLeftRow_fixed (hfull _ 3) (hfull _ 2) (hfull _ 1) (hfull _ 0)
          (Ne.symm (hh (rev4 i)).2.2) (Ne.symm (hh (rev4 i)).2.1)
          (Ne.symm (hh (rev4 i)).1)]
  refine ⟨isGameOver_iff r g, ?_, hgen g, hgen checkerGrid (by decide)
    (by decide) (by decide)⟩
  intro h
  rw [isGameOver, if_pos h]

theorem c2_witness : isGameOver (fun _ => (0, false)) cg1 = false :=
  (c2_game_over_characterisation (fun _ => (0, false)) cg1).2.1 (by decide)

/-- Claim C3: the four concrete `collapse_row` test vectors of
`_move_left_row`. -/
theorem c3_collapse_row_vectors :
    moveLeftRow [2, 2, 2, 0] = ([4, 2, 0, 0], 4) ∧
      moveLeftRow [2, 2, 4, 4] = ([4, 8, 0, 0], 12) ∧
      moveLeftRow [0, 0, 0, 2] = ([2, 0, 0, 0], 0) ∧
      moveLeftRow [8, 0, 8, 8] = ([16, 8, 0, 0], 16) := by
  decide

/-- Claim C4: on every row of four integers the implemented collapse
(compress, one left-to-right merge scan zeroing the right-hand partner,
compress again) agrees exactly — output row and score — with the spec's
reference algorithm that re-compacts after every individual merge, merges
leftmost pairs first and keeps merged tiles inert; hence no tile from a
merge merges again in the same move. -/
theorem c4_row_collapse_refinement {row : List Nat} (h : row.length = 4) :
    moveLeftRow row = collapseRowSpec row :=
  moveLeftRow_eq_spec h

theorem c4_witness :
    ([8, 0, 8, 8] : List Nat).length = 4 ∧
      moveLeftRow [8, 0, 8, 8] = collapseRowSpec [8, 0, 8, 8] :=
  ⟨by decide, c4_row_collapse_refinement (by decide)⟩

/-- Claim C5, counterexample: on a board whose top row is `[2,2,2,2]` the
first `move_left` reports `moved = true`, and so does a second `move_left`
on the board it returns — the merge scan does not re-compact between
merges, so the first call leaves `[4,4,…]` which merges again (the spawned
tile is not even needed). -/
theorem c5_counterexample :
    (moveLeft (0, false) cgFourTwos).2.1 = true ∧
      (moveLeft (0, false) ((moveLeft (0, false) cgFourTwos).1)).2.1 = true := by
  decide

/-- Claim C5 (amended): `move_left` twice in a row is only guaranteed to
report `moved = false` the second time when the first call already reported
`moved = false` (the board is then unchanged); after a successful first
call the second call may report `moved = true`. -/
theorem c5_idempotent_when_not_moved (g : Grid) (c c' : Choice)
    (h : (moveLeft c g).2.1 = false) :
    (moveLeft c' (moveLeft c g).1).2.1 = false := by
  have hcoll : collapseL g = g := moveLeft_flag_false_iff.mp h
  rw [moveLeft_of_eq c hcoll]
  show (moveLeft c' g).2.1 = false
  rw [moveLeft_of_eq c' hcoll]

theorem c5_witness :
    (moveLeft (0, false) zeroGrid).2.1 = false ∧
      (moveLeft (1, true) (moveLeft (0, false) zeroGrid).1).2.1 = false :=
  ⟨by decide,
    c5_idempotent_when_not_moved zeroGrid (0, false) (1, true) (by decide)⟩

/-- Claim C6: on a board with no empty cell, `_add_new_tile` reports
failure and returns the board unchanged (and, being a total function of the
embedding, raises nothing). -/
theorem c6_spawn_on_full_grid (g : Grid) (c : Nat) (four : Bool)
    (h : ∀ i j : Idx, g i j ≠ 0) : addNewTile c four g = (g, false) :=
  addNewTile_full c four h

theorem c6_witness : addNewTile 3 true fullGrid = (fullGrid, false) :=
  c6_spawn_on_full_grid fullGrid 3 true (by decide)

/-- Claim C7, counterexample: a successful `move_left` on `cgFullAfter`
(top row `[2,2,4,8]`, all other rows immovable) merges once, and the spawn
refills the freed cell — immediately after the move every cell of the board
is occupied. -/
theorem c7_counterexample :
    (moveLeft (0, false) cgFullAfter).2.1 = true ∧
      ∀ i j : Idx, (moveLeft (0, false) cgFullAfter).1 i j ≠ 0 := by
  decide

/-- Claim C7 (amended): the board has at least one empty cell immediately
after initialization, and, for every move reporting `moved = true`,
immediately after the slide/merge phase and before the spawn (so the spawn
always finds an empty cell); after the spawn the board may be full. -/
theorem c7_empty_cell_before_spawn :
    (∀ c1 c2 : Choice, ∃ p : Idx × Idx, initBoard c1 c2 p.1 p.2 = 0) ∧
    (∀ (g : Grid) (d : Direction) (c : Choice),
      (applyMove d c g).2.1 = true → ∃ i j : Idx, slideGrid d g i j = 0) := by
  constructor
  · intro c1 c2
    obtain ⟨q1, hq1⟩ := addNewTile_other_cells c1.1 c1.2 zeroGrid
    obtain ⟨q2, hq2⟩ :=
      addNewTile_other_cells c2.1 c2.2 (addNewTile c1.1 c1.2 zeroGrid).1
    have hfind : ∃ p : Idx × Idx, p ≠ q1 ∧ p ≠ q2 := by
      by_cases hA1 : ((0, 0) : Idx × Idx) = q1
      · by_cases hB2 : ((0, 1) : Idx × Idx) = q2
        · exact ⟨(0, 2), by rw [← hA1]; decide, by rw [← hB2]; decide⟩
        · exact ⟨(0, 1), by rw [← hA1]; decide, hB2⟩
      · by_cases hA2 : ((0, 0) : Idx × Idx) = q2
        · by_cases hB1 : ((0, 1) : Idx × Idx) = q1
          · exact ⟨(0, 2), by rw [← hB1]; decide, by rw [← hA2]; decide⟩
          · exact ⟨(0, 1), hB1, by rw [← hA2]; decide⟩
        · exact ⟨(0, 0), hA1, hA2⟩
    obtain ⟨p, hp1, hp2⟩ := hfind
    refine ⟨p, ?_⟩
    show (addNewTile c2.1 c2.2 (addNewTile c1.1 c1.2 zeroGrid).1).1 p.1 p.2 = 0
    rw [hq2 p hp2, hq1 p hp1]
    rfl
  · intro g d c h
    have hne := (applyMove_flag d c g).mp h
    exact unrotFor_zero_cell d (collapseL_zero_cell hne)

theorem c7_witness :
    (applyMove Direction.left (0, false) cgFourTwos).2.1 = true ∧
      ∃ i j : Idx, slideGrid Direction.left cgFourTwos i j = 0 :=
  ⟨by decide,
    c7_empty_cell_before_spawn.2 cgFourTwos Direction.left (0, false)
      (by decide)⟩

/-- Claim C8: initialization, every directional move and the spawn all
preserve the invariant that every cell is `0` or a positive power of two,
and consequently every reachable board satisfies it in every cell. -/
theorem c8_power_of_two_invariant :
    (∀ c1 c2 : Choice, validGrid (initBoard c1 c2)) ∧
    (∀ (g : Grid) (d : Direction) (c : Choice),
      validGrid g → validGrid (applyMove d c g).1) ∧
    (∀ (g : Grid) (c : Nat) (four : Bool),
      validGrid g → validGrid (addNewTile c four g).1) ∧
    (∀ g : Grid, Reachable g → validGrid g) :=
  ⟨validGrid_initBoard, fun _ d c h => validGrid_applyMove d c h,
    fun _ c four h => validGrid_addNewTile c four h,
    fun _ h => validGrid_reachable h⟩

theorem c8_witness : validGrid (initBoard (0, false) (1, true)) :=
  c8_power_of_two_invariant.2.2.2 _ (Reachable.init (0, false) (1, true))

/-- Claim C9: `is_game_over` simulates the four moves only against the
scratch copy — the session it was called on comes back bit-for-bit
unchanged whatever boolean is returned, and the boolean is the pure
`is_game_over` of its board. -/
theorem c9_game_over_frame (r : Nat → Choice) (s : GameState) :
    (isGameOverCall r s).2 = s ∧ (isGameOverCall r s).1 = isGameOver r s.board := by
  by_cases hz : hasZero s.board = true
  · simp [isGameOverCall, isGameOver, hz]
  · by_cases h1 : (moveLeft (r 0) s.board).2.1 = true
    · simp [isGameOverCall, isGameOver, hz, h1]
    · by_cases h2 : (moveRight (r 1) (moveLeft (r 0) s.board).1).2.1 = true
      · simp [isGameOverCall, isGameOver, hz, h1, h2]
      · by_cases h3 : (moveUp (r 2)
            (moveRight (r 1) (moveLeft (r 0) s.board).1).1).2.1 = true
        · simp [isGameOverCall, isGameOver, hz, h1, h2, h3]
        · by_cases h4 : (moveDown (r 3) (moveUp (r 2)
              (moveRight (r 1) (moveLeft (r 0) s.board).1).1).1).2.1 = true
          · simp [isGameOverCall, isGameOver, hz, h1, h2, h3, h4]
          · simp [isGameOverCall, isGameOver, hz, h1, h2, h3, h4]

/-- Claim C10: `_move_left_row` preserves the sum of a row; hence a move
reporting `moved = false` leaves the total of all cells unchanged, and a
move reporting `moved = true` increases it by exactly the spawned tile's
value (2, or 4 when the `FOUR_CHANCE` draw hits). -/
theorem c10_sum_invariant (row : List Nat) (g : Grid) (d : Direction)
    (c : Choice) :
    (moveLeftRow row).1.sum = row.sum ∧
    ((applyMove d c g).2.1 = false → gridSum (applyMove d c g).1 = gridSum g) ∧
    ((applyMove d c g).2.1 = true →
      gridSum (applyMove d c g).1 = gridSum g + spawnVal c.2) := by
  refine ⟨moveLeftRow_sum row, ?_, ?_⟩
  · intro h
    rw [applyMove_grid_of_not_moved h]
  · intro h
    rw [applyMove_grid_of_moved h]
    have hne := (applyMove_flag d c g).mp h
    have hes : emptyCells (collapseL (rotFor d g)) ≠ [] :=
      emptyCells_ne_nil (collapseL_zero_cell hne)
    obtain ⟨p, hp, hre⟩ := addNewTile_spec c.1 c.2 hes
    rw [hre, gridSum_unrotFor]
    show gridSum (setCell (collapseL (rotFor d g)) p.1 p.2 (spawnVal c.2)) = _
    rw [gridSum_setCell (mem_emptyCells hp), gridSum_collapseL, gridSum_rotFor]

theorem c10_witness :
    (applyMove Direction.left (0, false) cg1).2.1 = true ∧
      gridSum (applyMove Direction.left (0, false) cg1).1 =
        gridSum cg1 + spawnVal false :=
  ⟨by decide,
    (c10_sum_invariant [] cg1 Direction.left (0, false)).2.2 (by decide)⟩

end Game2048
